import Mathlib

/-!
Verification development for the Microsoft Teams artifacts ingest module
(`src/teamsartifacts/teamsartifacts.py`).

The Python source is shallowly embedded in Lean.  JSON values are modelled by
the inductive `JVal` (numeric JSON values are modelled as exact integers, and
Python floats produced by `float(...)` on strings as exact decimal fractions;
IEEE-754 rounding is not modelled, which is faithful for timestamps far below
2^53).  Python dictionaries are modelled as insertion-ordered association
lists.  Stateful parts of the pipeline (the conversation-to-tenant map and the
contacts map) are modelled by explicit state passing.  Regular-expression
driven string processing is embedded by dedicated scanner functions, one per
pattern, each documented with the original pattern and faithful to leftmost
match order and to the greedy or lazy repetition in the pattern.  Recursive
string scanners take an explicit fuel argument (always instantiated with the
string length plus one, which is an upper bound on the number of scan steps)
so that every definition is structurally recursive and kernel-evaluable.
-/

namespace TeamsArtifacts

/-- Whitespace test for the Python `str.strip()` calls in the module.  ASCII
whitespace plus the no-break space; Python additionally strips the rarer
Unicode space separators from `unicode` strings, which never occur in the
inputs considered here. -/
def isPyWs (c : Char) : Bool :=
  c = ' ' || c = '\t' || c = '\n' || c = '\r' || c = '\x0b' || c = '\x0c' || c = '\xa0'

/-- Python `str.strip()` on a character list. -/
def pyStripL (s : List Char) : List Char :=
  ((s.dropWhile isPyWs).reverse.dropWhile isPyWs).reverse

/-- Python `str.strip()`. -/
def pyStrip (s : String) : String :=
  String.mk (pyStripL s.data)

/-- ASCII lower casing, used for the `re.IGNORECASE` comparisons (all the
ignore-case literals in the source are ASCII). -/
def asciiLower (c : Char) : Char :=
  if 'A' ≤ c && c ≤ 'Z' then Char.ofNat (c.toNat + 32) else c

/-- Case-insensitive character comparison. -/
def eqCI (a b : Char) : Bool :=
  asciiLower a = asciiLower b

/-- Does the second list start with the first one (exact characters)? -/
def leadsWith : List Char → List Char → Bool
  | [], _ => true
  | _ :: _, [] => false
  | p :: ps, c :: cs => p = c && leadsWith ps cs

/-- Does the second list start with the first one, ignoring ASCII case? -/
def leadsWithCI : List Char → List Char → Bool
  | [], _ => true
  | _ :: _, [] => false
  | p :: ps, c :: cs => eqCI p c && leadsWithCI ps cs

/-- Python `pat in s` substring test. -/
def hasSub (pat : List Char) : List Char → Bool
  | [] => pat.isEmpty
  | c :: cs => leadsWith pat (c :: cs) || hasSub pat cs

/-- One fuelled step scanner for Python `str.replace(pat, rep)`:
left-to-right, non-overlapping.  The fuel is consumed once per emitted or
replaced position, so `s.length + 1` fuel always suffices. -/
def replAllF (pat rep : List Char) : Nat → List Char → List Char
  | 0, s => s
  | _ + 1, [] => []
  | f + 1, c :: cs =>
    if pat ≠ [] && leadsWith pat (c :: cs) then
      rep ++ replAllF pat rep f (List.drop (pat.length - 1) cs)
    else
      c :: replAllF pat rep f cs

/-- Python `str.replace(pat, rep)` on character lists. -/
def replAll (pat rep s : List Char) : List Char :=
  replAllF pat rep (s.length + 1) s

/-- Join a list of character lists with a separator. -/
def joinSep (sep : List Char) : List (List Char) → List Char
  | [] => []
  | [x] => x
  | x :: y :: rest => x ++ sep ++ joinSep sep (y :: rest)

/-- Exact value of a Python float literal parsed from a string: the value is
`(if neg then -1 else 1) * num / den` with `den` a positive power of ten. -/
structure PyFloat where
  neg : Bool
  num : Nat
  den : Nat
deriving DecidableEq

/-- Is the float value strictly greater than the natural threshold `t`? -/
def pyfGtNat (x : PyFloat) (t : Nat) : Bool :=
  !x.neg && x.num > t * x.den

/-- Exact division of the float value by 1000 (Python `v / 1000.0`; exact
because the quotient is only ever truncated or floored afterwards, and the
double rounding of `v / 1000.0` cannot move the value across an integer for
the magnitudes of real timestamps). -/
def pyfDiv1000 (x : PyFloat) : PyFloat :=
  { x with den := x.den * 1000 }

/-- Python `int(v)`: truncation toward zero. -/
def pyfTrunc (x : PyFloat) : Int :=
  if x.neg then -(x.num / x.den : Nat) else (x.num / x.den : Nat)

/-- Floor of the float value (the seconds instant displayed by
`datetime.utcfromtimestamp`). -/
def pyfFloor (x : PyFloat) : Int :=
  if x.neg then -(((x.num + x.den - 1) / x.den : Nat)) else (x.num / x.den : Nat)

/-- Digit value of an ASCII digit character. -/
def digitVal (c : Char) : Option Nat :=
  if '0' ≤ c && c ≤ '9' then some (c.toNat - 48) else none

/-- Read a maximal run of digits, returning the accumulated value, the number
of digits read and the rest of the input. -/
def readDigits : List Char → Nat → Nat → Nat × Nat × List Char
  | [], acc, k => (acc, k, [])
  | c :: cs, acc, k =>
    match digitVal c with
    | some d => readDigits cs (10 * acc + d) (k + 1)
    | none => (acc, k, c :: cs)

/-- Python `float(s)` on a string, restricted to the decimal forms
`[+-]?digits[.digits]?` and `[+-]?.digits` with surrounding whitespace.
Exponent notation, `inf` and `nan` are not modelled (no claim involves them);
other inputs raise `ValueError` in Python, modelled by `none`. -/
def pyFloatOfString (s : String) : Option PyFloat :=
  let t := pyStripL s.data
  let signAndRest : Bool × List Char :=
    match t with
    | '+' :: r => (false, r)
    | '-' :: r => (true, r)
    | _ => (false, t)
  let neg := signAndRest.1
  let (ip, k1, r1) := readDigits signAndRest.2 0 0
  match r1 with
  | '.' :: r2 =>
    let (fp, k2, r3) := readDigits r2 0 0
    if r3 = [] && k1 + k2 > 0 then some ⟨neg, ip * 10 ^ k2 + fp, 10 ^ k2⟩ else none
  | [] => if k1 > 0 then some ⟨neg, ip, 1⟩ else none
  | _ => none

/-- JSON values as decoded by `json.load`, with numbers restricted to exact
integers (every numeric field exercised by the claims is an integer; float
JSON numbers would add IEEE-754 concerns orthogonal to the claims). -/
inductive JVal where
  | jnull : JVal
  | jbool (b : Bool) : JVal
  | jnum (n : Int) : JVal
  | jstr (s : String) : JVal
  | jarr (xs : List JVal) : JVal
  | jobj (fields : List (String × JVal)) : JVal

/-- Python truthiness of a decoded JSON value. -/
def pyTruthy : JVal → Bool
  | .jnull => false
  | .jbool b => b
  | .jnum n => n ≠ 0
  | .jstr s => s ≠ ""
  | .jarr xs => !xs.isEmpty
  | .jobj fs => !fs.isEmpty

/-- First binding of a key in an association list. -/
def assocFind {α : Type} : List (String × α) → String → Option α
  | [], _ => none
  | (k0, v) :: rest, k => if k0 = k then some v else assocFind rest k

/-- Python dict assignment `m[k] = v`: replace the existing binding, keeping
its position, or append a new one (Python dicts are modelled with insertion
order; the Jython 2 runtime does not guarantee an iteration order, a
nondeterminism the spec flags, but no claim below depends on it). -/
def assocInsert {α : Type} : List (String × α) → String → α → List (String × α)
  | [], k, v => [(k, v)]
  | (k0, v0) :: rest, k, v =>
    if k0 = k then (k0, v) :: rest else (k0, v0) :: assocInsert rest k v

/-- Python `d.get(k, dflt)`. -/
def pyDictGetD (m : List (String × JVal)) (k : String) (dflt : JVal) : JVal :=
  (assocFind m k).getD dflt

/-- Python `k in d`. -/
def pyDictHas (m : List (String × JVal)) (k : String) : Bool :=
  (assocFind m k).isSome

/-- Python `v == lit` for a decoded JSON value against a string literal:
true exactly when the value is that string. -/
def jvalEqStr (v : JVal) (lit : String) : Bool :=
  match v with
  | .jstr s => s = lit
  | _ => false

/-- Python `unicode(val)` for the scalar values that can reach it in the
module.  The container cases are placeholders: `unicode` of a container
prints a Python literal, a branch no claim reaches. -/
def pyStr : JVal → String
  | .jnull => "None"
  | .jbool b => if b then "True" else "False"
  | .jnum n => toString n
  | .jstr s => s
  | .jarr _ => "<list>"
  | .jobj _ => "<dict>"

/-- Date-time record produced by the two `datetime.strptime` calls of the
module (microseconds are dropped by `timetuple()` before any use, so they are
not recorded). -/
structure PyDT where
  year : Nat
  month : Nat
  day : Nat
  hour : Nat
  minute : Nat
  second : Nat
deriving DecidableEq

/-- Parse a strptime numeric field that the format matches with an
alternation of a two-digit form and a one-digit form (for example `%m` is
`1[0-2]|0[1-9]|[1-9]`).  `valid2` accepts the two-digit values, `valid1` the
one-digit values.  Taking the two-digit branch can never hide a one-digit
parse in these formats because each field is followed by a non-digit literal
or the end of the input. -/
def parseField (valid2 valid1 : Nat → Bool) : List Char → Option (Nat × List Char)
  | [] => none
  | [c1] =>
    match digitVal c1 with
    | some d1 => if valid1 d1 then some (d1, []) else none
    | none => none
  | c1 :: c2 :: rest =>
    match digitVal c1, digitVal c2 with
    | some d1, some d2 =>
      if valid2 (10 * d1 + d2) then some (10 * d1 + d2, rest)
      else if valid1 d1 then some (d1, c2 :: rest) else none
    | some d1, none => if valid1 d1 then some (d1, c2 :: rest) else none
    | none, _ => none

/-- Parse exactly four digits (the `%Y` directive). -/
def parseYear4 : List Char → Option (Nat × List Char)
  | c1 :: c2 :: c3 :: c4 :: rest =>
    match digitVal c1, digitVal c2, digitVal c3, digitVal c4 with
    | some d1, some d2, some d3, some d4 =>
      some (1000 * d1 + 100 * d2 + 10 * d3 + d4, rest)
    | _, _, _, _ => none
  | _ => none

/-- Expect one literal character. -/
def parseLit (ch : Char) : List Char → Option (List Char)
  | c :: rest => if c = ch then some rest else none
  | [] => none

/-- Gregorian leap year (proleptic, as used by `datetime`). -/
def isLeapYear (y : Nat) : Bool :=
  (y % 4 = 0 && y % 100 ≠ 0) || y % 400 = 0

/-- Days in a month of the proleptic Gregorian calendar. -/
def daysInMonth (y m : Nat) : Nat :=
  if m = 2 then (if isLeapYear y then 29 else 28)
  else if m = 4 || m = 6 || m = 9 || m = 11 then 30
  else 31

/-- Shared body of the two strptime calls: parse
`%Y-%m-%dT%H:%M:%S` and return the remaining input.  The per-field ranges are
those of the strptime directive regexes; the constructor checks of
`datetime` (year at least 1, day valid for the month, second at most 59) are
applied by the caller. -/
def parseIsoBody (s : List Char) : Option (PyDT × List Char) :=
  match parseYear4 s with
  | none => none
  | some (y, r1) =>
    match parseLit '-' r1 with
    | none => none
    | some r2 =>
      match parseField (fun n => 1 ≤ n && n ≤ 12) (fun n => 1 ≤ n && n ≤ 9) r2 with
      | none => none
      | some (mo, r3) =>
        match parseLit '-' r3 with
        | none => none
        | some r4 =>
          match parseField (fun n => 1 ≤ n && n ≤ 31) (fun n => 1 ≤ n && n ≤ 9) r4 with
          | none => none
          | some (d, r5) =>
            match parseLit 'T' r5 with
            | none => none
            | some r6 =>
              match parseField (fun n => n ≤ 23) (fun _ => true) r6 with
              | none => none
              | some (h, r7) =>
                match parseLit ':' r7 with
                | none => none
                | some r8 =>
                  match parseField (fun n => n ≤ 59) (fun _ => true) r8 with
                  | none => none
                  | some (mi, r9) =>
                    match parseLit ':' r9 with
                    | none => none
                    | some r10 =>
                      match parseField (fun n => n ≤ 61) (fun _ => true) r10 with
                      | none => none
                      | some (sec, r11) => some (⟨y, mo, d, h, mi, sec⟩, r11)

/-- Validity checks applied by the `datetime` constructor after the regex
match: year at least `MINYEAR`, day within the month, second at most 59
(strptime's regex admits leap seconds 60 and 61 but the constructor then
raises). -/
def dtValid (dt : PyDT) : Bool :=
  1 ≤ dt.year && 1 ≤ dt.day && dt.day ≤ daysInMonth dt.year dt.month && dt.second ≤ 59

/-- Python `datetime.strptime(s, "%Y-%m-%dT%H:%M:%S")`: the whole input must
be consumed. -/
def strptimePlain (s : List Char) : Option PyDT :=
  match parseIsoBody s with
  | some (dt, []) => if dtValid dt then some dt else none
  | _ => none

/-- Python `datetime.strptime(s, "%Y-%m-%dT%H:%M:%S.%f")`: the body, a dot,
then one to six fraction digits ending the input; the fraction value is
dropped by `timetuple()`. -/
def strptimeFrac (s : List Char) : Option PyDT :=
  match parseIsoBody s with
  | some (dt, rest) =>
    match rest with
    | '.' :: r2 =>
      let (_, k, r3) := readDigits r2 0 0
      if 1 ≤ k && k ≤ 6 && r3 = [] && dtValid dt then some dt else none
    | _ => none
  | none => none

/-- Days since 1970-01-01 of a proleptic Gregorian civil date
(the standard era-based civil-from-days computation; `Int` division here is
floor division, which the formula expects). -/
def daysFromCivil (y m d : Int) : Int :=
  let yy := if m ≤ 2 then y - 1 else y
  let era := yy.fdiv 400
  let yoe := yy - era * 400
  let mp := if m ≤ 2 then m + 9 else m - 3
  let doy := (153 * mp + 2) / 5 + d - 1
  let doe := yoe * 365 + yoe / 4 - yoe / 100 + doy
  era * 146097 + doe - 719468

/-- Civil date from days since the epoch (inverse of `daysFromCivil`). -/
def civilFromDays (z0 : Int) : Int × Int × Int :=
  let z := z0 + 719468
  let era := z.fdiv 146097
  let doe := z - era * 146097
  let yoe := (doe - doe / 1460 + doe / 36524 - doe / 146096) / 365
  let yy := yoe + era * 400
  let doy := doe - (365 * yoe + yoe / 4 - yoe / 100)
  let mp := (5 * doy + 2) / 153
  let d := doy - (153 * mp + 2) / 5 + 1
  let m := if mp < 10 then mp + 3 else mp - 9
  (if m ≤ 2 then yy + 1 else yy, m, d)

/-- Python `calendar.timegm(dt.timetuple())`: seconds since the epoch of a
UTC civil instant. -/
def timegmDT (dt : PyDT) : Int :=
  daysFromCivil dt.year dt.month dt.day * 86400
    + dt.hour * 3600 + dt.minute * 60 + dt.second

/-- Zero-pad a natural number to at least two digits (`"{:02d}".format`). -/
def pad2 (n : Nat) : String :=
  if n < 10 then "0" ++ toString n else toString n

/-- Zero-pad a natural number to at least four digits (`%Y` in strftime).
For years below 1000 the padding is platform-dependent (glibc prints the
year unpadded, the Java runtime the module runs under pads to four); no
claim exercises such years. -/
def pad4 (n : Nat) : String :=
  if n < 10 then "000" ++ toString n
  else if n < 100 then "00" ++ toString n
  else if n < 1000 then "0" ++ toString n
  else toString n

/-- Python `dt.strftime("%Y-%m-%d %H:%M:%S")` on a parsed date-time. -/
def strftimeDT (dt : PyDT) : String :=
  pad4 dt.year ++ "-" ++ pad2 dt.month ++ "-" ++ pad2 dt.day ++ " "
    ++ pad2 dt.hour ++ ":" ++ pad2 dt.minute ++ ":" ++ pad2 dt.second

/-- Python `datetime.utcfromtimestamp(secs).strftime("%Y-%m-%d %H:%M:%S")`
for an integral seconds instant inside the representable `datetime` range. -/
def formatUtc (secs : Int) : String :=
  let days := secs.fdiv 86400
  let rem := (secs - days * 86400).toNat
  let ymd := civilFromDays days
  pad4 ymd.1.toNat ++ "-" ++ pad2 ymd.2.1.toNat ++ "-" ++ pad2 ymd.2.2.toNat ++ " "
    ++ pad2 (rem / 3600) ++ ":" ++ pad2 (rem % 3600 / 60) ++ ":" ++ pad2 (rem % 60)

/-- Epoch seconds of `0001-01-01T00:00:00`, the smallest instant
`datetime.utcfromtimestamp` accepts. -/
def minEpoch : Int := -62135596800

/-- Epoch seconds of `9999-12-31T23:59:59`, the largest instant
`datetime.utcfromtimestamp` accepts. -/
def maxEpoch : Int := 253402300799

/-- The shape test of the ISO branch of `_convert_timestamp`
(teamsartifacts.py line 713): a string containing `T` and a dash or colon. -/
def isoShape (s : String) : Bool :=
  s.data.contains 'T' && (s.data.contains '-' || s.data.contains ':')

/-- Python `s.rstrip("Z")`: drop every trailing uppercase `Z`. -/
def rstripZ (s : List Char) : List Char :=
  (s.reverse.dropWhile (· = 'Z')).reverse

/-- Result of `_convert_timestamp`: Python `None`, a numeric epoch value, or
a string. -/
inductive TsValue where
  | tsNone : TsValue
  | tsInt (n : Int) : TsValue
  | tsStr (s : String) : TsValue
deriving DecidableEq

/-- The ISO parse shared by `_convert_timestamp` (teamsartifacts.py lines
714-720) and, textually duplicated, by the inner parse of
`_calculate_call_duration` (lines 1120-1126): strip trailing `Z`, pick the
fractional format when a dot is present, and truncate the input to 26 or 19
characters before parsing. -/
def isoParseDT (s : String) : Option PyDT :=
  if (rstripZ s.data).contains '.' then strptimeFrac ((rstripZ s.data).take 26)
  else strptimePlain ((rstripZ s.data).take 19)

/-- The display-mode fallback of the ISO branch: the first 19 characters of
the `Z`-stripped input with `T` replaced by a space. -/
def isoDisplayFallback (s : String) : String :=
  String.mk (((rstripZ s.data).take 19).map (fun c => if c = 'T' then ' ' else c))

/-- Result of the ISO branch in either mode. -/
def convertIso (s : String) (forDatetimeAttr : Bool) : TsValue :=
  match isoParseDT s with
  | some dt =>
    if forDatetimeAttr then .tsInt (timegmDT dt) else .tsStr (strftimeDT dt)
  | none =>
    if forDatetimeAttr then .tsNone
    else .tsStr (isoDisplayFallback s)

/-- Embedding of `_convert_timestamp(val, for_datetime_attr)`
(teamsartifacts.py lines 696-747).  Falsy inputs return `None` or the empty
string before any parsing.  Strings shaped like ISO-8601 take the ISO
branch.  Everything else is coerced with `float(...)`; values above
9,999,999,999 are divided by 1000; epoch mode truncates to an integer;
display mode formats the instant in UTC, falling back to `unicode(val)` when
`utcfromtimestamp` raises (instant outside years 1..9999, or a value
`float` cannot parse). -/
def convertTimestamp (val : JVal) (forDatetimeAttr : Bool) : TsValue :=
  if !pyTruthy val then (if forDatetimeAttr then .tsNone else .tsStr "") else
  match val with
  | .jstr s =>
    if isoShape s then convertIso s forDatetimeAttr
    else
      match pyFloatOfString s with
      | none => if forDatetimeAttr then .tsNone else .tsStr s
      | some q =>
        let v := if pyfGtNat q 9999999999 then pyfDiv1000 q else q
        if forDatetimeAttr then .tsInt (pyfTrunc v)
        else
          let secs := pyfFloor v
          if minEpoch ≤ secs && secs ≤ maxEpoch then .tsStr (formatUtc secs)
          else .tsStr s
  | .jnum n =>
    let v : Int := if n > 9999999999 then n / 1000 else n
    if forDatetimeAttr then .tsInt v
    else if minEpoch ≤ v && v ≤ maxEpoch then .tsStr (formatUtc v)
    else .tsStr (toString n)
  | .jbool b =>
    if forDatetimeAttr then .tsInt (if b then 1 else 0)
    else .tsStr (formatUtc (if b then 1 else 0))
  | other =>
    if forDatetimeAttr then .tsNone else .tsStr (pyStr other)

/-- The inner `parse_timestamp_to_seconds` of `_calculate_call_duration`
(teamsartifacts.py lines 1117-1135): the same ISO branch as the normalizer
(returning `None` on parse failure), and for everything else `float(...)`
with the milliseconds threshold and truncation; a `float` failure raises and
is caught by the enclosing `try`, which yields `None` for the whole duration,
so it is merged into `none` here. -/
def parseTimestampToSeconds (t : JVal) : Option Int :=
  match t with
  | .jstr s =>
    if isoShape s then (isoParseDT s).map timegmDT
    else
      match pyFloatOfString s with
      | none => none
      | some q => some (pyfTrunc (if pyfGtNat q 9999999999 then pyfDiv1000 q else q))
  | .jnum n => some (if n > 9999999999 then n / 1000 else n)
  | .jbool b => some (if b then 1 else 0)
  | _ => none

/-- Format a non-negative number of seconds as `HH:MM:SS`
(`"{:02d}:{:02d}:{:02d}"`; hours keep all their digits past two). -/
def formatHMS (d : Nat) : String :=
  pad2 (d / 3600) ++ ":" ++ pad2 (d % 3600 / 60) ++ ":" ++ pad2 (d % 60)

/-- Embedding of `_calculate_call_duration(start_time, end_time)`
(teamsartifacts.py lines 1114-1151).  Note the truthiness test
`if start_seconds and end_seconds` on the parsed values: an endpoint that
parses to the epoch instant 0 is treated like a parse failure. -/
def calculateCallDuration (startT endT : JVal) : Option String :=
  match parseTimestampToSeconds startT with
  | none => none
  | some a =>
    match parseTimestampToSeconds endT with
    | none => none
    | some b =>
      if a ≠ 0 && b ≠ 0 then
        (if 0 ≤ b - a then some (formatHMS (b - a).toNat) else none)
      else none

/-- The contacts map built by `_process_people` (teamsartifacts.py lines
465-481): values are the plain display-name strings, stored as `JVal` to keep
the dynamic typing of the lookup visible. -/
def ContactsMap : Type := List (String × JVal)

/-- One step of `_process_people` on an extracted `(mri, displayname)` pair
(teamsartifacts.py lines 470-475): store only when both are truthy. -/
def recordContact (cm : ContactsMap) (mri displayName : String) : ContactsMap :=
  if mri ≠ "" && displayName ≠ "" then assocInsert cm mri (.jstr displayName) else cm

/-- Embedding of the effective `_get_contact_name_by_id` (teamsartifacts.py
lines 1282-1291).  The module defines `_get_contact_name_by_id` twice in the
class body; this later definition shadows the earlier one at lines
1053-1072.  It returns the stored value only when that value is a dict
(`isinstance(contact, dict)`), reading its `displayName` or `name` key with
Python `or` (first truthy wins); any other stored value falls through to
`None`. -/
def getContactNameById (cm : ContactsMap) (userId : String) : JVal :=
  if userId = "" || cm.isEmpty then .jnull
  else
    match assocFind cm userId with
    | some contact =>
      if pyTruthy contact then
        match contact with
        | .jobj fields =>
          let dn := pyDictGetD fields "displayName" .jnull
          if pyTruthy dn then dn else pyDictGetD fields "name" .jnull
        | _ => .jnull
      else .jnull
    | none => .jnull

/-- Embedding of the earlier, shadowed `_get_contact_name_by_id`
(teamsartifacts.py lines 1053-1072): exact key match first, then a scan of
all entries matching when either identifier is a non-empty substring of the
other, first hit winning.  This definition is dead code in the module; it is
embedded to witness what the documented lookup would return. -/
def getContactNameByIdShadowed (cm : ContactsMap) (userId : String) : JVal :=
  if userId = "" || cm.isEmpty then .jnull
  else
    match assocFind cm userId with
    | some contact => contact
    | none =>
      let ps := pyStrip userId
      let hit := cm.find? (fun p =>
        p.1 ≠ "" && ps ≠ "" &&
          (p.1 = ps || hasSub ps.data p.1.data || hasSub p.1.data ps.data))
      match hit with
      | some p => p.2
      | none => .jnull

/-- Embedding of `_enrich_creator_with_name(creator_id)` (teamsartifacts.py
lines 1074-1083): append the contact name in parentheses when the (effective)
lookup returns a truthy value, else return the id unchanged. -/
def enrichCreatorWithName (cm : ContactsMap) (creatorId : String) : String :=
  if creatorId = "" then creatorId
  else
    let contactName := getContactNameById cm creatorId
    if pyTruthy contactName then creatorId ++ " (" ++ pyStr contactName ++ ")"
    else creatorId

/-- The same enrichment computed with the shadowed (documented) lookup, for
comparison with the contract in the spec. -/
def enrichCreatorShadowed (cm : ContactsMap) (creatorId : String) : String :=
  if creatorId = "" then creatorId
  else
    let contactName := getContactNameByIdShadowed cm creatorId
    if pyTruthy contactName then creatorId ++ " (" ++ pyStr contactName ++ ")"
    else creatorId

/-- A raw message dict. -/
def PyDict : Type := List (String × JVal)

/-- The four primary entity kinds `_process_single_message` can emit. -/
inductive PrimaryKind where
  | callLogConv : PrimaryKind
  | callActivity : PrimaryKind
  | meetingEvent : PrimaryKind
  | regularMessage : PrimaryKind
deriving DecidableEq

/-- The guard of `_process_call_log` (teamsartifacts.py lines 1408-1413):
a call-log conversation artifact is produced only for `Text` messages whose
properties dict carries a `call-log` key; otherwise the function returns 0
and produces nothing. -/
def processCallLogGuard (msg : PyDict) : Bool :=
  jvalEqStr (pyDictGetD msg "messageType" (.jstr "")) "Text"
    && (match pyDictGetD msg "properties" (.jobj []) with
        | .jobj fields => pyDictHas fields "call-log"
        | _ => false)

/-- Embedding of the dispatch of `_process_single_message`
(teamsartifacts.py lines 530-560): which primary artifact a message-like
record produces, and whether the reaction pass runs.  The first branch is
taken for every record of the `48:calllogs` conversation, whatever its
message kind; the remaining kind tests only run for other conversations.
`_process_message_reactions` is invoked unconditionally after the dispatch
(line 558), recorded by the second component. -/
def processSingleMessage (msg : PyDict) (conversationId : String) :
    Option PrimaryKind × Bool :=
  let msgType := pyDictGetD msg "messageType" (.jstr "")
  let primary :=
    if conversationId = "48:calllogs" then
      (if processCallLogGuard msg then some .callLogConv else none)
    else if jvalEqStr msgType "RichText/Media_CallRecording"
        || jvalEqStr msgType "RichText/Media_CallTranscript" then
      some .callActivity
    else if jvalEqStr msgType "Event/Call" then
      some .meetingEvent
    else if jvalEqStr msgType "Text" || jvalEqStr msgType "RichText/Html" then
      some .regularMessage
    else
      none
  (primary, true)

/-- A raw mention fragment as read by `_extract_props` (teamsartifacts.py
lines 820-824): `m.get("mri", "")`, `m.get("mentionType", "")`,
`m.get("displayName", "")`, modelled with the string values these fields
carry. -/
structure MentionFrag where
  mri : String
  mentionType : String
  displayName : String

/-- A merged mention emitted by `_extract_props`. -/
structure MentionMin where
  mri : String
  mentionType : String
  displayName : String
deriving DecidableEq

/-- A mention group under construction: key, the mention type of the first
fragment, and the display-name parts in arrival order. -/
structure MentionGroup where
  mri : String
  mentionType : String
  parts : List String

/-- One step of the grouping loop of `_extract_props` (teamsartifacts.py
lines 819-833): fragments with a falsy `mri` are skipped; otherwise the
display name joins the group of that `mri`, which keeps the mention type of
its first fragment. -/
def addMentionFrag (gs : List MentionGroup) (fr : MentionFrag) : List MentionGroup :=
  if fr.mri = "" then gs
  else if gs.any (fun g => g.mri = fr.mri) then
    gs.map (fun g => if g.mri = fr.mri then { g with parts := g.parts ++ [fr.displayName] } else g)
  else
    gs ++ [{ mri := fr.mri, mentionType := fr.mentionType, parts := [fr.displayName] }]

/-- The punctuation normalization applied to a merged display name
(teamsartifacts.py line 840). -/
def fixMentionPunct (s : List Char) : List Char :=
  replAll " ,".data ",".data (replAll "( ".data "(".data (replAll " )".data ")".data s))

/-- Rebuild merged mentions from the groups (teamsartifacts.py lines
836-846): strip each part, drop blank parts, and emit nothing for a group
whose parts are all blank. -/
def mentionOfGroup (g : MentionGroup) : List MentionMin :=
  let nameParts := (g.parts.map pyStrip).filter (fun p => p ≠ "")
  if nameParts ≠ [] then
    [{ mri := g.mri, mentionType := g.mentionType,
       displayName := String.mk (fixMentionPunct (joinSep " ".data (nameParts.map String.data))) }]
  else []

/-- The mention component of `_extract_props` (teamsartifacts.py lines
816-846).  The group iteration order is modelled as insertion order; the
Jython 2 dict iteration order is arbitrary, but which mentions are emitted
does not depend on it. -/
def extractPropsMentions (frags : List MentionFrag) : List MentionMin :=
  (frags.foldl addMentionFrag []).flatMap mentionOfGroup

/-- A record of `output_conversations.json` as far as `_process_conversations`
reads it (teamsartifacts.py lines 421-435): the optional `tenant_id` string
and, when `value` is a dict with a dict under its own `value` key, that inner
thread dict.  (A non-dict inner value would raise inside the loop and abort
the document; the claims quantify over the dict-shaped records the function
processes.) -/
structure ConvRec where
  tenantId : Option String
  threadVal : Option PyDict

/-- Embedding of `_safe_string_extract` (teamsartifacts.py lines 673-681). -/
def safeStringExtract : Option JVal → String
  | none => ""
  | some .jnull => ""
  | some (.jstr s) => pyStrip s
  | some (.jobj _) => ""
  | some v => pyStr v

/-- The tenant-map update of one conversation record (teamsartifacts.py lines
429-435): `conversation_tenant_map[threadId] = tenantId` guarded by the
truthiness of both.  This is the only write to the map in the module (every
other occurrence is a `.get`). -/
def processConversationRecord (tm : List (String × String)) (rec : ConvRec) :
    List (String × String) :=
  match rec.threadVal with
  | none => tm
  | some tv =>
    match rec.tenantId with
    | some t =>
      if safeStringExtract (assocFind tv "id") ≠ "" && t ≠ "" then
        assocInsert tm (safeStringExtract (assocFind tv "id")) t
      else tm
    | none => tm

/-- `_process_conversations` over a record list, threading the tenant map. -/
def processConversations (tm : List (String × String)) (recs : List ConvRec) :
    List (String × String) :=
  recs.foldl processConversationRecord tm

/-- File categorization of `_categorize_json_files` (teamsartifacts.py lines
297-320), keyed on the two fixed file names; returns
(conversation files, people files, other files), each in input order. -/
def categorizeJsonFiles : List String → List String × List String × List String
  | [] => ([], [], [])
  | f :: rest =>
    let r := categorizeJsonFiles rest
    if f = "output_conversations.json" then (f :: r.1, r.2.1, r.2.2)
    else if f = "output_people.json" then (r.1, f :: r.2.1, r.2.2)
    else (r.1, r.2.1, f :: r.2.2)

/-- Category rank of a file name: contacts documents first, conversation
documents second, everything else last. -/
def fileRank (name : String) : Nat :=
  if name = "output_people.json" then 0
  else if name = "output_conversations.json" then 1
  else 2

/-- The processing order of `_process_files_in_sequence` (teamsartifacts.py
lines 322-352): people files, then conversation files, then the rest, with a
cancellation check before each file; `cancelAfter` is the number of checks
that report no cancellation, so the run stops after that many files. -/
def processFilesInSequence (files : List String) (cancelAfter : Nat) : List String :=
  let cpo := categorizeJsonFiles files
  (cpo.2.1 ++ cpo.1 ++ cpo.2.2).take cancelAfter

/-- Entity kinds emitted to the sink, used to count per-document output. -/
inductive Emission where
  | thread : Emission
  | contact : Emission
  | primary (k : PrimaryKind) : Emission
deriving DecidableEq

/-- The decoded payload of one input document, after the fixed-name dispatch
of `_parse_json` (teamsartifacts.py lines 393-399).  Message documents carry,
per record, the conversation id and the messages of its `messageMap`. -/
inductive Payload where
  | convDoc (recs : List ConvRec) : Payload
  | peopleDoc (recs : List (String × String)) : Payload
  | msgDoc (recs : List (String × List PyDict)) : Payload

/-- Pipeline state: the conversation-to-tenant map and the contacts map. -/
structure PipeState where
  tenantMap : List (String × String)
  contactsMap : ContactsMap

/-- One input document: its base name and either its decoded records or the
load/parse error raised by `json.load` (teamsartifacts.py lines 388-390). -/
structure PipelineDoc where
  basename : String
  content : Except String Payload

/-- The error message posted by `_handle_parsing_error` (teamsartifacts.py
lines 1097-1112). -/
def parseErrMsg (basename err : String) : String :=
  "Error parsing " ++ basename ++ ": " ++ err

/-- Process the records of one successfully loaded document: conversation
documents update the tenant map and emit one thread record per dict-shaped
record; people documents update the contacts map and emit one contact record
each; message documents leave the state unchanged and emit the primary
entities of their messages (the per-message reaction and attachment artifacts
are side outputs not needed by the document-level claims). -/
def processPayload (st : PipeState) : Payload → PipeState × List Emission
  | .convDoc recs =>
    ({ st with tenantMap := processConversations st.tenantMap recs },
      recs.filterMap (fun r => r.threadVal.map (fun _ => Emission.thread)))
  | .peopleDoc recs =>
    ({ st with contactsMap := recs.foldl (fun cm r => recordContact cm r.1 r.2) st.contactsMap },
      recs.map (fun _ => Emission.contact))
  | .msgDoc recs =>
    (st, recs.flatMap (fun r =>
      r.2.filterMap (fun m => (processSingleMessage m r.1).1.map Emission.primary)))

/-- Embedding of `_parse_json` on one document (teamsartifacts.py lines
366-405): a document whose load fails is skipped whole, contributes no
records, leaves the state unchanged and surfaces one error message; a loaded
document is processed by category. -/
def parseJsonDoc (st : PipeState) (d : PipelineDoc) :
    PipeState × List Emission × List String :=
  match d.content with
  | .error e => (st, [], [parseErrMsg d.basename e])
  | .ok p =>
    let r := processPayload st p
    (r.1, r.2, [])

/-- Run the pipeline over a document list, accumulating emissions and
surfaced errors; no document ever aborts the run. -/
def runPipelineDocs (st : PipeState) : List PipelineDoc → PipeState × List Emission × List String
  | [] => (st, [], [])
  | d :: ds =>
    let r1 := parseJsonDoc st d
    let r2 := runPipelineDocs r1.1 ds
    (r2.1, r1.2.1 ++ r2.2.1, r1.2.2 ++ r2.2.2)

/-- Apostrophe character (U+0027). -/
def apos : Char := Char.ofNat 39

/-- Skip to the first `>` and return the rest after it: the effect of a
greedy `[^>]*` followed by a literal `>`. -/
def toAfterGt : List Char → Option (List Char)
  | [] => none
  | '>' :: r => some r
  | _ :: r => toAfterGt r

/-- Split at the first case-insensitive occurrence of `lit` (a lazy
`([\s\S]*?)` followed by the literal): characters before it and the rest
after it. -/
def untilLitCI (lit : List Char) : List Char → Option (List Char × List Char)
  | [] => none
  | c :: cs =>
    if leadsWithCI lit (c :: cs) then some ([], List.drop (lit.length - 1) cs)
    else
      match untilLitCI lit cs with
      | some (a, r) => some (c :: a, r)
      | none => none

/-- First case-insensitive occurrence of `lit` inside the run of non-`>`
characters (a lazy `[^>]*?` before the literal); `none` when the run ends
first. -/
def findLitInRun (lit : List Char) : List Char → Option (List Char)
  | [] => none
  | c :: cs =>
    if c = '>' then none
    else if leadsWithCI lit (c :: cs) then some (List.drop (lit.length - 1) cs)
    else findLitInRun lit cs

/-- All case-insensitive occurrences of `lit` inside the run of non-`>`
characters, as the suffixes following each occurrence, in text order (the
candidate positions a greedy `[^>]*` before the literal can hand to the
continuation). -/
def litStartsInRun (lit : List Char) : List Char → List (List Char)
  | [] => []
  | c :: cs =>
    if c = '>' then []
    else
      (if leadsWithCI lit (c :: cs) then [List.drop (lit.length - 1) cs] else [])
        ++ litStartsInRun lit cs

/-- Try the candidates of a greedy repetition in backtracking order: the
rightmost (longest consumed) candidate first. -/
def firstSomeRev {α β : Type} (f : α → Option β) : List α → Option β
  | [] => none
  | x :: xs =>
    match firstSomeRev f xs with
    | some r => some r
    | none => f x

/-- Literal `<blockquote` of the blockquote patterns. -/
def bqOpenLit : List Char := "<blockquote".data

/-- Literal `</blockquote>`. -/
def bqCloseLit : List Char := "</blockquote>".data

/-- The `itemtype` literal of the Reply pattern (teamsartifacts.py lines
930-932).  The unescaped regex dots of the URL are modelled as literal
dots. -/
def replyItemLit : List Char := "itemtype=\"http://schema.skype.com/Reply\"".data

/-- The `itemtype` literal of the Forward pattern (teamsartifacts.py lines
933-935). -/
def forwardItemLit : List Char := "itemtype=\"http://schema.skype.com/Forward\"".data

/-- Attempt the blockquote pattern
`<blockquote[^>]*?(?:itemscope[^>]*?)?itemtype="..."[^>]*>([\s\S]*?)</blockquote>`
at the current position: the optional `itemscope` group is subsumed by the
lazy `[^>]*?` before it, so the match succeeds exactly when the `itemtype`
literal occurs inside the open tag; returns the lazily captured quoted
content and the text after `</blockquote>`. -/
def tryBqAt (itemLit s : List Char) : Option (List Char × List Char) :=
  if leadsWithCI bqOpenLit s then
    match findLitInRun itemLit (List.drop 11 s) with
    | some afterLit =>
      match toAfterGt afterLit with
      | some contentStart => untilLitCI bqCloseLit contentStart
      | none => none
    | none => none
  else none

/-- Leftmost search for a blockquote of the given item type, returning the
text before the match, the quoted content and the text after the match. -/
def searchBqF (itemLit : List Char) : Nat → List Char → List Char →
    Option (List Char × List Char × List Char)
  | 0, _, _ => none
  | _ + 1, _, [] => none
  | f + 1, acc, c :: cs =>
    match tryBqAt itemLit (c :: cs) with
    | some (inner, after) => some (acc.reverse, inner, after)
    | none => searchBqF itemLit f (c :: acc) cs

/-- `re.search` of a blockquote pattern over a string. -/
def searchBq (itemLit : List Char) (html : String) : Option (String × String × String) :=
  match searchBqF itemLit (html.data.length + 1) [] html.data with
  | some (b, i, a) => some (String.mk b, String.mk i, String.mk a)
  | none => none

/-- Literal `<strong` of the sender pattern. -/
def strongOpenLit : List Char := "<strong".data

/-- Literal `</strong>`. -/
def strongCloseLit : List Char := "</strong>".data

/-- Attempt `<strong[^>]*>([^<]+)</strong>` at the current position
(teamsartifacts.py lines 952, 955); returns the captured group and the rest
after the match. -/
def tryStrongAt (s : List Char) : Option (List Char × List Char) :=
  if leadsWithCI strongOpenLit s then
    match toAfterGt (List.drop 7 s) with
    | some r =>
      let grp := r.takeWhile (· ≠ '<')
      let rest := r.dropWhile (· ≠ '<')
      if grp ≠ [] && leadsWithCI strongCloseLit rest then some (grp, List.drop 9 rest)
      else none
    | none => none
  else none

/-- Leftmost `re.search` for the first bold run. -/
def strongFirstF : Nat → List Char → Option (List Char)
  | 0, _ => none
  | _ + 1, [] => none
  | f + 1, c :: cs =>
    match tryStrongAt (c :: cs) with
    | some (grp, _) => some grp
    | none => strongFirstF f cs

/-- The raw group of the first `<strong...>...</strong>` run of a string. -/
def strongFirst (s : String) : Option String :=
  (strongFirstF (s.data.length + 1) s.data).map String.mk

/-- `re.sub(r'<strong[^>]*>[^<]+</strong>', '', s)`: remove every bold run
(teamsartifacts.py line 955). -/
def removeStrongsF : Nat → List Char → List Char
  | 0, s => s
  | _ + 1, [] => []
  | f + 1, c :: cs =>
    match tryStrongAt (c :: cs) with
    | some (_, rest) => removeStrongsF f rest
    | none => c :: removeStrongsF f cs

/-- Bold-run removal over a string. -/
def removeStrongs (s : String) : String :=
  String.mk (removeStrongsF (s.data.length + 1) s.data)

/-- Literal `<span` of the quoted-identifier pattern. -/
def spanOpenLit : List Char := "<span".data

/-- Literal `itemid`. -/
def itemidLit : List Char := "itemid".data

/-- After an `itemid` occurrence, match `\s*=\s*"([^"]+)"` and return the
captured identifier. -/
def spanCandTry (r : List Char) : Option (List Char) :=
  match r.dropWhile isPyWs with
  | '=' :: r2 =>
    match r2.dropWhile isPyWs with
    | '"' :: r4 =>
      let v := r4.takeWhile (· ≠ '"')
      let rest := r4.dropWhile (· ≠ '"')
      if v ≠ [] && rest ≠ [] then some v else none
    | _ => none
  | _ => none

/-- Attempt `<span[^>]*itemid\s*=\s*"([^"]+)"` at the current position
(teamsartifacts.py line 960); the greedy `[^>]*` hands `itemid` occurrences
to the continuation from the right. -/
def trySpanAt (s : List Char) : Option (List Char) :=
  if leadsWithCI spanOpenLit s then
    firstSomeRev spanCandTry (litStartsInRun itemidLit (List.drop 5 s))
  else none

/-- Leftmost search for the quoted participant identifier. -/
def spanItemidF : Nat → List Char → Option (List Char)
  | 0, _ => none
  | _ + 1, [] => none
  | f + 1, c :: cs =>
    match trySpanAt (c :: cs) with
    | some v => some v
    | none => spanItemidF f cs

/-- The quoted participant identifier of a reply block, when present. -/
def spanItemid (s : String) : Option String :=
  (spanItemidF (s.data.length + 1) s.data).map String.mk

/-- Literal `<a ` (with the space) of the anchor patterns. -/
def aOpenLit : List Char := "<a ".data

/-- Literal `href="`. -/
def hrefLit : List Char := "href=\"".data

/-- Literal `</a>`. -/
def aCloseLit : List Char := "</a>".data

/-- After a `href="` occurrence, match `([^"]+)"[^>]*>` and return the
captured URL and the rest after the closing `>`. -/
def aCandTry (r : List Char) : Option (List Char × List Char) :=
  let url := r.takeWhile (· ≠ '"')
  let rest := r.dropWhile (· ≠ '"')
  match rest with
  | '"' :: r2 =>
    if url ≠ [] then
      match toAfterGt r2 with
      | some r3 => some (url, r3)
      | none => none
    else none
  | _ => none

/-- Attempt `<a [^>]*href="([^"]+)"[^>]*>` at the current position
(teamsartifacts.py line 1016). -/
def tryATagAt (s : List Char) : Option (List Char × List Char) :=
  if leadsWithCI aOpenLit s then
    firstSomeRev aCandTry (litStartsInRun hrefLit (List.drop 3 s))
  else none

/-- Attempt the full anchor pattern
`<a [^>]*href="([^"]+)"[^>]*>[^<]*</a>` at the current position
(teamsartifacts.py lines 1019-1020). -/
def tryFullATagAt (s : List Char) : Option (List Char × List Char) :=
  if leadsWithCI aOpenLit s then
    firstSomeRev (fun r =>
      match aCandTry r with
      | some (url, r3) =>
        let rest := r3.dropWhile (· ≠ '<')
        if leadsWithCI aCloseLit rest then some (url, List.drop 4 rest) else none
      | none => none) (litStartsInRun hrefLit (List.drop 3 s))
  else none

/-- `re.findall` of the anchor pattern: every URL, leftmost,
non-overlapping. -/
def findHrefsF : Nat → List Char → List (List Char)
  | 0, _ => []
  | _ + 1, [] => []
  | f + 1, c :: cs =>
    match tryATagAt (c :: cs) with
    | some (url, rest) => url :: findHrefsF f rest
    | none => findHrefsF f cs

/-- `re.sub` replacing every full anchor element by its URL. -/
def replaceATagsF : Nat → List Char → List Char
  | 0, s => s
  | _ + 1, [] => []
  | f + 1, c :: cs =>
    match tryFullATagAt (c :: cs) with
    | some (url, rest) => url ++ replaceATagsF f rest
    | none => c :: replaceATagsF f cs

/-- Attempt `</p\s*>` (case sensitive; teamsartifacts.py line 1024). -/
def tryPCloseAt : List Char → Option (List Char)
  | '<' :: '/' :: 'p' :: r =>
    match r.dropWhile isPyWs with
    | '>' :: rest => some rest
    | _ => none
  | _ => none

/-- `re.sub(r"</p\s*>", "\n", s)`. -/
def pCloseSubF : Nat → List Char → List Char
  | 0, s => s
  | _ + 1, [] => []
  | f + 1, c :: cs =>
    match tryPCloseAt (c :: cs) with
    | some rest => '\n' :: pCloseSubF f rest
    | none => c :: pCloseSubF f cs

/-- Attempt `<[^>]+>` at the current position. -/
def tryTagAt : List Char → Option (List Char)
  | '<' :: c :: cs => if c = '>' then none else toAfterGt (c :: cs)
  | _ => none

/-- `re.sub(r"<[^>]+>", "", s)`: strip the remaining markup tags
(teamsartifacts.py line 1025). -/
def stripTagsF : Nat → List Char → List Char
  | 0, s => s
  | _ + 1, [] => []
  | f + 1, c :: cs =>
    match tryTagAt (c :: cs) with
    | some rest => stripTagsF f rest
    | none => c :: stripTagsF f cs

/-- The two identical passes of `re.sub(r"\\(['\"])", r"\1", s)` are built
from this single pass: a backslash followed by a quote collapses to the
quote (teamsartifacts.py lines 1031-1032). -/
def bsQuoteSub : List Char → List Char
  | [] => []
  | '\\' :: c :: cs =>
    if c = apos || c = '"' then c :: bsQuoteSub cs
    else '\\' :: bsQuoteSub (c :: cs)
  | c :: cs => c :: bsQuoteSub cs

/-- Embedding of `_unescape_html` (teamsartifacts.py lines 888-897): the five
standard entities, replaced in source order. -/
def unescapeHtml (s : List Char) : List Char :=
  if s = [] then []
  else
    replAll "&#39;".data [apos]
      (replAll "&quot;".data "\"".data
        (replAll "&gt;".data ">".data
          (replAll "&lt;".data "<".data
            (replAll "&amp;".data "&".data s))))

/-- Embedding of `_process_regular_html` (teamsartifacts.py lines
1013-1051): collect anchor URLs, replace anchors by their targets, map break
and paragraph-close tags to newlines, strip remaining tags, decode entities,
collapse escaped quotes, normalize the non-breaking-space variants, strip,
and append the collected URLs that do not already occur in the text. -/
def processRegularHtml (html : List Char) : List Char :=
  let hrefs := findHrefsF (html.length + 1) html
  let s1 := replaceATagsF (html.length + 1) html
  let s2 := replAll "<br />".data "\n".data
    (replAll "<br/>".data "\n".data (replAll "<br>".data "\n".data s1))
  let s3 := pCloseSubF (s2.length + 1) s2
  let s4 := stripTagsF (s3.length + 1) s3
  let s5 := unescapeHtml s4
  let s6 := bsQuoteSub (bsQuoteSub s5)
  let s7 := replAll "\\xa0".data " ".data
    (replAll "&nbsp;".data " ".data (replAll "\xa0".data " ".data s6))
  let s8 := s7.map (fun c => if c = '\xa0' || c = '\u2007' || c = '\u202F' then ' ' else c)
  let s9 := replAll "\\n".data "\n".data
    (replAll "\r\n".data "\n".data (replAll "\\r\\n".data "\n".data s8))
  let s10 := pyStripL s9
  let toAdd := hrefs.filter (fun h => !hasSub h s10)
  if !hrefs.isEmpty && !toAdd.isEmpty then
    (if s10 ≠ [] then s10 ++ "\n".data ++ joinSep "\n".data toAdd
     else joinSep "\n".data toAdd)
  else s10

/-- Tail `\s*</p>?\s*$` of the paragraph-wrapped link pattern.  The optional
`>` is consumed when present: declining it leaves `>` under `\s*`, which
cannot match, so the commitment is faithful to the regex backtracking. -/
def linkEndA (r : List Char) : Bool :=
  let r1 := r.dropWhile isPyWs
  if leadsWithCI "</p".data r1 then
    match List.drop 3 r1 with
    | '>' :: r3 => (r3.dropWhile isPyWs).isEmpty
    | r2 => (r2.dropWhile isPyWs).isEmpty
  else false

/-- Tail `\s*$` of the bare link pattern. -/
def linkEndB (r : List Char) : Bool :=
  (r.dropWhile isPyWs).isEmpty

/-- Match `<a [^>]*href="([^"]+)"[^>]*>[^<]+</a>` at the current position
followed by the given tail check, trying the `href="` candidates in greedy
backtracking order; returns the captured URL. -/
def tryLinkWith (tailOk : List Char → Bool) (t : List Char) : Option (List Char) :=
  if leadsWithCI aOpenLit t then
    firstSomeRev (fun r =>
      match aCandTry r with
      | some (url, r3) =>
        let body := r3.takeWhile (· ≠ '<')
        let rest := r3.dropWhile (· ≠ '<')
        if body ≠ [] && leadsWithCI aCloseLit rest && tailOk (List.drop 4 rest) then some url
        else none
      | none => none) (litStartsInRun hrefLit (List.drop 3 t))
  else none

/-- The anchored match
`\s*<p>?\s*<a [^>]*href="([^"]+)"[^>]*>[^<]+</a>\s*</p>?\s*$`
(teamsartifacts.py lines 921-922).  The `<p>?` of the pattern is the literal
`<p` with an optional `>`. -/
def matchLinkParagraph (s : List Char) : Option (List Char) :=
  let s1 := s.dropWhile isPyWs
  if leadsWithCI "<p".data s1 then
    match List.drop 2 s1 with
    | '>' :: s3 => tryLinkWith linkEndA (s3.dropWhile isPyWs)
    | s2 => tryLinkWith linkEndA (s2.dropWhile isPyWs)
  else none

/-- The anchored match `\s*<a [^>]*href="([^"]+)"[^>]*>[^<]+</a>\s*$`
(teamsartifacts.py lines 924-925). -/
def matchLinkBare (s : List Char) : Option (List Char) :=
  tryLinkWith linkEndB (s.dropWhile isPyWs)

/-- The pure-link check of `_clean_html` (teamsartifacts.py lines 920-927):
both patterns are matched against the stripped markup; the paragraph-wrapped
form is tried first. -/
def searchLinkOnly (html : String) : Option String :=
  let stripped := pyStripL html.data
  match matchLinkParagraph stripped with
  | some url => some (String.mk url)
  | none => (matchLinkBare stripped).map String.mk

/-- The per-character bold substitution of `bold_unicode`
(teamsartifacts.py lines 906-915): Latin capitals map from U+1D400, small
letters from U+1D41A, digits from U+1D7CE; everything else is unchanged. -/
def boldChar (c : Char) : Char :=
  if 65 ≤ c.toNat && c.toNat ≤ 90 then Char.ofNat (0x1D400 + (c.toNat - 65))
  else if 97 ≤ c.toNat && c.toNat ≤ 122 then Char.ofNat (0x1D41A + (c.toNat - 97))
  else if 48 ≤ c.toNat && c.toNat ≤ 57 then Char.ofNat (0x1D7CE + (c.toNat - 48))
  else c

/-- Embedding of `bold_unicode` (teamsartifacts.py lines 906-915). -/
def boldUnicode (s : String) : String :=
  String.mk (s.data.map boldChar)

/-- Composition step of `_process_reply_blockquote` (teamsartifacts.py lines
946-979), taking the quoted markup (for the sender and identifier searches),
the stripped text before the block, and the already rendered quoted text,
trailing text and before text.  The contact lookup is the effective
(shadowing) `_get_contact_name_by_id`. -/
def composeReply (cm : ContactsMap) (inner before q r bclean : String) : String :=
  let tailTxt := pyStrip q ++ "\n\n" ++ pyStrip r
  let core :=
    match strongFirst inner with
    | some raw =>
      let sender := pyStrip raw
      if sender ≠ "" then
        let lbl :=
          match spanItemid inner with
          | some itemid =>
            let contactName := getContactNameById cm itemid
            if pyTruthy contactName then
              boldUnicode ("In reply to " ++ sender ++ " (" ++ pyStr contactName ++ "):")
            else boldUnicode ("In reply to " ++ sender ++ ":")
          | none => boldUnicode ("In reply to " ++ sender ++ ":")
        lbl ++ " " ++ tailTxt
      else boldUnicode "In reply to message" ++ ": " ++ tailTxt
    | none => boldUnicode "In reply to message" ++ ": " ++ tailTxt
  let res := if before ≠ "" then pyStrip bclean ++ "\n\n" ++ core else core
  pyStrip res

/-- Composition step of `_process_forward_blockquote` (teamsartifacts.py
lines 981-1011): an optional `Original: <sender> <time>` line from the
side-channel `originalMessageContext`, the bold `Forwarded message:` label
with the quoted text, the optional before text, and the trailing text when
non-blank. -/
def composeForward (props : Option JVal) (before q r bclean : String) : String :=
  let info :=
    match props with
    | some pv =>
      if pyTruthy pv then
        match pv with
        | .jobj pf =>
          match assocFind pf "originalMessageContext" with
          | some ctx =>
            if pyTruthy ctx then
              match ctx with
              | .jobj cf =>
                let origSender := pyDictGetD cf "sender" (.jstr "")
                let origTime := pyDictGetD cf "clientArrivalTime" (.jstr "")
                if pyTruthy origSender || pyTruthy origTime then
                  let timeStr :=
                    if pyTruthy origTime then
                      match convertTimestamp origTime false with
                      | .tsStr s => s
                      | _ => ""
                    else ""
                  pyStrip ("Original: " ++ pyStr origSender ++ " " ++ timeStr) ++ "\n"
                else ""
              | _ => ""
            else ""
          | none => ""
        | _ => ""
      else ""
    | none => ""
  let base := info ++ boldUnicode "Forwarded message:" ++ " " ++ pyStrip q
  let base2 := if before ≠ "" then pyStrip bclean ++ "\n\n" ++ base else base
  let base3 := if pyStrip r ≠ "" then base2 ++ "\n\n" ++ pyStrip r else base2
  pyStrip base3

/-- Fuelled embedding of `_clean_html` (teamsartifacts.py lines 899-944):
empty markup renders empty; a markup that is exactly one (optionally
paragraph-wrapped) hyperlink renders to its target; otherwise a Reply
blockquote is processed, else a Forward blockquote, else the generic
cleanup.  One unit of
fuel is spent per recursion level; the quoted, trailing and preceding
fragments are proper sub-strings, so `length + 1` fuel always suffices. -/
def cleanHtmlF (cm : ContactsMap) : Nat → Option JVal → String → String
  | 0, _, _ => ""
  | f + 1, props, html =>
    if html = "" then ""
    else
      match searchLinkOnly html with
      | some url => url
      | none =>
        match searchBq replyItemLit html with
        | some (pre, inner, after) =>
          let before := pyStrip pre
          let q := cleanHtmlF cm f none (removeStrongs inner)
          let r := cleanHtmlF cm f none after
          let bclean := if before ≠ "" then cleanHtmlF cm f none before else ""
          composeReply cm inner before q r bclean
        | none =>
          match searchBq forwardItemLit html with
          | some (pre, inner, after) =>
            let before := pyStrip pre
            let q := cleanHtmlF cm f none inner
            let r := cleanHtmlF cm f none after
            let bclean := if before ≠ "" then cleanHtmlF cm f none before else ""
            composeForward props before q r bclean
          | none => String.mk (processRegularHtml html.data)

/-- Embedding of `_clean_html(html_str, properties)`. -/
def cleanHtml (cm : ContactsMap) (props : Option JVal) (html : String) : String :=
  cleanHtmlF cm (html.data.length + 1) props html

/-- When the timestamp normalizer in epoch mode yields an integer, the inner
parse of `_calculate_call_duration` yields the same integer: the two
functions share the ISO branch and the numeric coercion, and the falsy
values the normalizer rejects never produce a non-zero parse. -/
theorem epochParseSome (v : JVal) (a : Int) (h : convertTimestamp v true = .tsInt a) :
    parseTimestampToSeconds v = some a := by
  cases v with
  | jnull => simp [convertTimestamp, pyTruthy] at h
  | jbool b =>
    cases b with
    | false => simp [convertTimestamp, pyTruthy] at h
    | true =>
      simp [convertTimestamp, pyTruthy] at h
      simp [parseTimestampToSeconds, ← h]
  | jnum n =>
    by_cases hn : n = 0
    · subst hn; simp [convertTimestamp, pyTruthy] at h
    · simp [convertTimestamp, pyTruthy, hn] at h
      simp [parseTimestampToSeconds, ← h]
  | jstr s =>
    by_cases hs : s = ""
    · subst hs; simp [convertTimestamp, pyTruthy] at h
    · simp [convertTimestamp, pyTruthy, hs] at h
      by_cases hiso : isoShape s
      · rw [if_pos hiso] at h
        simp only [parseTimestampToSeconds, if_pos hiso]
        unfold convertIso at h
        cases hp : isoParseDT s with
        | some dt => rw [hp] at h; simp at h; simp [h]
        | none => rw [hp] at h; simp at h
      · rw [if_neg hiso] at h
        simp only [parseTimestampToSeconds, if_neg hiso]
        cases hq : pyFloatOfString s with
        | none => rw [hq] at h; simp at h
        | some q => rw [hq] at h; simp at h; simp [h]
  | jarr xs =>
    by_cases hx : xs.isEmpty
    · simp [convertTimestamp, pyTruthy, hx] at h
    · simp [convertTimestamp, pyTruthy, hx] at h
  | jobj fs =>
    by_cases hx : fs.isEmpty
    · simp [convertTimestamp, pyTruthy, hx] at h
    · simp [convertTimestamp, pyTruthy, hx] at h

/-- When the timestamp normalizer in epoch mode yields `None`, the inner
parse of `_calculate_call_duration` yields either a failure or the falsy
epoch value 0 — in both cases the duration computation then yields `None`. -/
theorem epochParseNone (v : JVal) (h : convertTimestamp v true = .tsNone) :
    parseTimestampToSeconds v = none ∨ parseTimestampToSeconds v = some 0 := by
  cases v with
  | jnull => simp [parseTimestampToSeconds]
  | jbool b =>
    cases b with
    | false => simp [parseTimestampToSeconds]
    | true => simp [convertTimestamp, pyTruthy] at h
  | jnum n =>
    by_cases hn : n = 0
    · subst hn; simp [parseTimestampToSeconds]
    · simp [convertTimestamp, pyTruthy, hn] at h
  | jstr s =>
    by_cases hs : s = ""
    · subst hs
      left
      simp [parseTimestampToSeconds, isoShape, pyFloatOfString, pyStripL, readDigits]
    · simp [convertTimestamp, pyTruthy, hs] at h
      by_cases hiso : isoShape s
      · rw [if_pos hiso] at h
        simp only [parseTimestampToSeconds, if_pos hiso]
        unfold convertIso at h
        cases hp : isoParseDT s with
        | some dt => rw [hp] at h; simp at h
        | none => left; rfl
      · rw [if_neg hiso] at h
        simp only [parseTimestampToSeconds, if_neg hiso]
        cases hq : pyFloatOfString s with
        | none => left; rfl
        | some q => rw [hq] at h; simp at h
  | jarr xs => left; simp [parseTimestampToSeconds]
  | jobj fs => left; simp [parseTimestampToSeconds]

/-- C1: the Contact Directory enrichment is broken in the code.  With the
directory holding the display name stored by `_process_people` for
`8:alice`, enriching `8:alice` returns the id unchanged instead of
`8:alice (Alice Smith)`: the second, shadowing definition of
`_get_contact_name_by_id` only accepts dict-valued entries while
`_process_people` stores plain strings, so the effective lookup always
returns `None`.  The shadowed first definition (exact match, then
bidirectional substring match) would return the display name, matching the
spec. -/
theorem c1_contact_enrichment_bug :
    enrichCreatorWithName (recordContact [] "8:alice" "Alice Smith") "8:alice" = "8:alice"
    ∧ "8:alice" ≠ "8:alice (Alice Smith)"
    ∧ enrichCreatorWithName (recordContact [] "8:alice" "Alice Smith") "9:unknown" = "9:unknown"
    ∧ enrichCreatorShadowed (recordContact [] "8:alice" "Alice Smith") "8:alice"
        = "8:alice (Alice Smith)" :=
  ⟨by decide, by decide, by decide, by decide⟩

/-- C2 counterexample: a record whose message kind is the call-recording
media kind but which sits in the `48:calllogs` conversation produces no
call-activity entity (and no primary entity at all), refuting the claim that
a call-activity is produced exactly when the kind is a recording or
transcript kind. -/
theorem c2_dispatch_counterexample :
    processSingleMessage [("messageType", .jstr "RichText/Media_CallRecording")] "48:calllogs"
      = (none, true)
    ∧ jvalEqStr (pyDictGetD [("messageType", .jstr "RichText/Media_CallRecording")]
        "messageType" (.jstr "")) "RichText/Media_CallRecording" = true :=
  ⟨by decide, by decide⟩

/-- A decoded JSON value equal (in the Python sense) to one string literal
is not equal to a different one. -/
theorem jvalEqStrExclusive (v : JVal) (a b : String) (hab : a ≠ b)
    (h : jvalEqStr v a = true) : jvalEqStr v b = false := by
  cases v <;> simp_all [jvalEqStr]

/-- C2 (amended): the record classifier produces a call-log conversation
entity exactly when the conversation id is `48:calllogs` and the call-log
guard holds (kind `Text` with a `call-log` property); for every other
conversation it produces a call-activity exactly for the recording or
transcript kinds, a meeting event exactly for `Event/Call`, and a regular
message exactly for `Text` or `RichText/Html`; inside `48:calllogs` no other
primary entity is ever produced; and the reaction scan runs for every
record. -/
theorem c2_dispatch_amended (msg : PyDict) (convId : String) :
    ((processSingleMessage msg convId).1 = some .callLogConv
      ↔ (convId = "48:calllogs" ∧ processCallLogGuard msg = true))
    ∧ ((processSingleMessage msg convId).1 = some .callActivity
      ↔ (convId ≠ "48:calllogs"
          ∧ (jvalEqStr (pyDictGetD msg "messageType" (.jstr "")) "RichText/Media_CallRecording"
             || jvalEqStr (pyDictGetD msg "messageType" (.jstr "")) "RichText/Media_CallTranscript")
              = true))
    ∧ ((processSingleMessage msg convId).1 = some .meetingEvent
      ↔ (convId ≠ "48:calllogs"
          ∧ jvalEqStr (pyDictGetD msg "messageType" (.jstr "")) "Event/Call" = true))
    ∧ ((processSingleMessage msg convId).1 = some .regularMessage
      ↔ (convId ≠ "48:calllogs"
          ∧ (jvalEqStr (pyDictGetD msg "messageType" (.jstr "")) "Text"
             || jvalEqStr (pyDictGetD msg "messageType" (.jstr "")) "RichText/Html") = true))
    ∧ (processSingleMessage msg convId).2 = true := by
  unfold processSingleMessage
  by_cases hconv : convId = "48:calllogs"
  · subst hconv
    by_cases hg : processCallLogGuard msg
    · simp [hg]
    · simp [hg]
  · simp only [if_neg hconv]
    by_cases h1 : (jvalEqStr (pyDictGetD msg "messageType" (.jstr "")) "RichText/Media_CallRecording"
        || jvalEqStr (pyDictGetD msg "messageType" (.jstr "")) "RichText/Media_CallTranscript") = true
    · have h1d := h1
      rw [Bool.or_eq_true] at h1d
      have hev : jvalEqStr (pyDictGetD msg "messageType" (.jstr "")) "Event/Call" = false := by
        rcases h1d with h | h
        · exact jvalEqStrExclusive _ _ _ (by decide) h
        · exact jvalEqStrExclusive _ _ _ (by decide) h
      have htx : jvalEqStr (pyDictGetD msg "messageType" (.jstr "")) "Text" = false := by
        rcases h1d with h | h
        · exact jvalEqStrExclusive _ _ _ (by decide) h
        · exact jvalEqStrExclusive _ _ _ (by decide) h
      have hht : jvalEqStr (pyDictGetD msg "messageType" (.jstr "")) "RichText/Html" = false := by
        rcases h1d with h | h
        · exact jvalEqStrExclusive _ _ _ (by decide) h
        · exact jvalEqStrExclusive _ _ _ (by decide) h
      simp [h1, hconv, hev, htx, hht]
    · by_cases h2 : jvalEqStr (pyDictGetD msg "messageType" (.jstr "")) "Event/Call" = true
      · have htx : jvalEqStr (pyDictGetD msg "messageType" (.jstr "")) "Text" = false :=
          jvalEqStrExclusive _ _ _ (by decide) h2
        have hht : jvalEqStr (pyDictGetD msg "messageType" (.jstr "")) "RichText/Html" = false :=
          jvalEqStrExclusive _ _ _ (by decide) h2
        simp [h1, h2, hconv, htx, hht]
      · by_cases h3 : (jvalEqStr (pyDictGetD msg "messageType" (.jstr "")) "Text"
            || jvalEqStr (pyDictGetD msg "messageType" (.jstr "")) "RichText/Html") = true
        · simp [h1, h2, h3, hconv]
        · simp [h1, h2, h3, hconv]

/-- C2 witness: an `Event/Call` record outside the call-log conversation is
classified as a meeting event. -/
theorem c2_dispatch_amended_witness :
    (processSingleMessage [("messageType", .jstr "Event/Call")] "conv1").1
      = some PrimaryKind.meetingEvent := by
  have h := (c2_dispatch_amended [("messageType", .jstr "Event/Call")] "conv1").2.2.1
  exact h.mpr ⟨by decide, by decide⟩

/-- C3 counterexample: the numeric input -20,000,000,000 has magnitude above
9,999,999,999, yet epoch-mode normalization returns it undivided: the code
compares the signed value, not the magnitude, so negative millisecond-scale
values are never divided by 1000. -/
theorem c3_numeric_counterexample :
    convertTimestamp (.jnum (-20000000000)) true = .tsInt (-20000000000)
    ∧ ((-20000000000 : Int) ≠ -20000000) :=
  ⟨by decide, by decide⟩

/-- C3 (amended): for every numeric timestamp `v` that exceeds 9,999,999,999
(signed comparison, not magnitude), normalization divides by 1000; epoch
mode then yields the integer seconds, and display mode formats the instant
as `YYYY-MM-DD HH:MM:SS` in UTC provided the instant is representable by
`datetime` (at most year 9999; the lower bound holds automatically since the
value is positive). -/
theorem c3_numeric_ms_division (n : Int) (h1 : 9999999999 < n)
    (h2 : n / 1000 ≤ maxEpoch) :
    convertTimestamp (.jnum n) true = .tsInt (n / 1000)
    ∧ convertTimestamp (.jnum n) false = .tsStr (formatUtc (n / 1000)) := by
  have hn0 : n ≠ 0 := by omega
  have hpos : (0 : Int) ≤ n / 1000 := Int.ediv_nonneg (by omega) (by omega)
  have hmin : minEpoch ≤ n / 1000 := by unfold minEpoch; omega
  constructor
  · simp [convertTimestamp, pyTruthy, hn0, h1]
  · simp [convertTimestamp, pyTruthy, hn0, h1, hmin, h2]

/-- C3 witness: the millisecond value 1,700,000,000,000 is above the
threshold and display mode formats it as the corresponding UTC instant. -/
theorem c3_numeric_ms_division_witness :
    9999999999 < (1700000000000 : Int)
    ∧ convertTimestamp (.jnum 1700000000000) false = .tsStr "2023-11-14 22:13:20" := by
  refine ⟨by decide, ?_⟩
  have h := (c3_numeric_ms_division 1700000000000 (by decide) (by decide)).2
  rw [h]
  decide

/-- C5 counterexample: the string `"0"` parses — by the normalizer's rules —
to the valid epoch instant 0, the numeric 100 parses to 100, and the
difference is non-negative, yet the duration computation yields `None`
instead of `00:01:40`: the truthiness test on the parsed seconds discards
the epoch instant 0. -/
theorem c5_duration_counterexample :
    convertTimestamp (.jstr "0") true = .tsInt 0
    ∧ convertTimestamp (.jnum 100) true = .tsInt 100
    ∧ calculateCallDuration (.jstr "0") (.jnum 100) = none :=
  ⟨by decide, by decide, by decide⟩

/-- C5 (amended): the duration computation parses both endpoints with the
same rules as the epoch-mode timestamp normalizer and formats the
end-minus-start difference as `HH:MM:SS` whenever both endpoints parse to a
non-zero seconds value and the difference is non-negative; a negative
difference, a failure to parse either endpoint, or an endpoint parsing to
the epoch instant 0, yields `None` (not zero). -/
theorem c5_duration_amended (s e : JVal) :
    (∀ a b : Int, convertTimestamp s true = .tsInt a → convertTimestamp e true = .tsInt b →
      a ≠ 0 → b ≠ 0 →
      calculateCallDuration s e = if a ≤ b then some (formatHMS (b - a).toNat) else none)
    ∧ (convertTimestamp s true = .tsNone → calculateCallDuration s e = none)
    ∧ (convertTimestamp e true = .tsNone → calculateCallDuration s e = none)
    ∧ (convertTimestamp s true = .tsInt 0 → calculateCallDuration s e = none)
    ∧ (convertTimestamp e true = .tsInt 0 → calculateCallDuration s e = none) := by
  refine ⟨?_, ?_, ?_, ?_, ?_⟩
  · intro a b ha hb ha0 hb0
    have pa := epochParseSome s a ha
    have pb := epochParseSome e b hb
    simp [calculateCallDuration, pa, pb, ha0, hb0, sub_nonneg]
  · intro hs
    rcases epochParseNone s hs with hp | hp
    · simp [calculateCallDuration, hp]
    · simp only [calculateCallDuration, hp]
      cases parseTimestampToSeconds e <;> simp
  · intro he
    cases hp : parseTimestampToSeconds s with
    | none => simp [calculateCallDuration, hp]
    | some a =>
      rcases epochParseNone e he with hq | hq
      · simp [calculateCallDuration, hp, hq]
      · simp [calculateCallDuration, hp, hq]
  · intro hs
    have pa := epochParseSome s 0 hs
    simp only [calculateCallDuration, pa]
    cases parseTimestampToSeconds e <;> simp
  · intro he
    have pb := epochParseSome e 0 he
    cases hp : parseTimestampToSeconds s with
    | none => simp [calculateCallDuration, hp]
    | some a => simp [calculateCallDuration, hp, pb]

/-- C5 witness: two numeric endpoints an hour apart produce `01:00:00`. -/
theorem c5_duration_amended_witness :
    calculateCallDuration (.jnum 1000) (.jnum 4600) = some "01:00:00" := by
  have h := (c5_duration_amended (.jnum 1000) (.jnum 4600)).1 1000 4600
    (by decide) (by decide) (by decide) (by decide)
  rw [h]
  decide

/-- C9: absence of a timestamp is tested by Python falsiness, so the numeric
input 0 — a valid epoch instant — and every other falsy value normalize to
`None` in epoch mode and to the empty string in display mode, never to the
epoch value 0 or to `1970-01-01 00:00:00`. -/
theorem c9_falsy_timestamp (v : JVal) (h : pyTruthy v = false) :
    convertTimestamp v true = .tsNone ∧ convertTimestamp v false = .tsStr "" := by
  constructor <;> simp [convertTimestamp, h]

/-- C9 witness: the numeric input 0 is falsy and normalizes to `None` and
the empty string. -/
theorem c9_falsy_timestamp_witness :
    pyTruthy (.jnum 0) = false
    ∧ convertTimestamp (.jnum 0) true = .tsNone
    ∧ convertTimestamp (.jnum 0) false = .tsStr "" :=
  ⟨by decide, (c9_falsy_timestamp (.jnum 0) (by decide)).1,
    (c9_falsy_timestamp (.jnum 0) (by decide)).2⟩

/-- The three bins of the file categorization carry the expected ranks. -/
theorem categorizeRanks (files : List String) :
    (∀ x ∈ (categorizeJsonFiles files).1, fileRank x = 1)
    ∧ (∀ x ∈ (categorizeJsonFiles files).2.1, fileRank x = 0)
    ∧ (∀ x ∈ (categorizeJsonFiles files).2.2, fileRank x = 2) := by
  induction files with
  | nil => simp [categorizeJsonFiles]
  | cons f rest ih =>
    obtain ⟨ih1, ih2, ih3⟩ := ih
    simp only [categorizeJsonFiles]
    by_cases h1 : f = "output_conversations.json"
    · rw [if_pos h1]
      refine ⟨?_, ih2, ih3⟩
      intro x hx
      rcases List.mem_cons.mp hx with h | h
      · subst h; rw [h1]; decide
      · exact ih1 x h
    · rw [if_neg h1]
      by_cases h2 : f = "output_people.json"
      · rw [if_pos h2]
        refine ⟨ih1, ?_, ih3⟩
        intro x hx
        rcases List.mem_cons.mp hx with h | h
        · subst h; rw [h2]; decide
        · exact ih2 x h
      · rw [if_neg h2]
        refine ⟨ih1, ih2, ?_⟩
        intro x hx
        rcases List.mem_cons.mp hx with h | h
        · subst h; simp [fileRank, h1, h2]
        · exact ih3 x h

/-- A list whose elements all have the same rank is pairwise
rank-monotone. -/
theorem pairwiseOfConstRank (l : List String) (k : Nat)
    (h : ∀ x ∈ l, fileRank x = k) :
    List.Pairwise (fun a b => fileRank a ≤ fileRank b) l := by
  induction l with
  | nil => simp
  | cons a t ih =>
    rw [List.pairwise_cons]
    constructor
    · intro b hb
      rw [h a (by simp), h b (by simp [hb])]
    · exact ih (fun x hx => h x (by simp [hx]))

/-- C6: in every run — also one cut short by cancellation — the sequence of
files the driver processes is sorted by category rank: all contacts
documents come before every conversations document, and all conversations
documents before every remaining (message-like) document; in particular a
message-like record is never processed before a contacts or conversations
document present in the same run. -/
theorem c6_category_order (files : List String) (cancelAfter : Nat) :
    List.Sorted (· ≤ ·) ((processFilesInSequence files cancelAfter).map fileRank) := by
  obtain ⟨hc, hp, ho⟩ := categorizeRanks files
  unfold processFilesInSequence
  rw [List.map_take]
  apply List.Pairwise.sublist (List.take_sublist _ _)
  rw [List.pairwise_map]
  rw [List.append_assoc, List.pairwise_append]
  refine ⟨pairwiseOfConstRank _ 0 hp, ?_, ?_⟩
  · rw [List.pairwise_append]
    refine ⟨pairwiseOfConstRank _ 1 hc, pairwiseOfConstRank _ 2 ho, ?_⟩
    intro a ha b hb
    rw [hc a ha, ho b hb]
    omega
  · intro a ha b hb
    rw [hp a ha]
    rcases List.mem_append.mp hb with h | h
    · rw [hc b h]; omega
    · rw [ho b h]; omega

/-- Replacement insertion preserves a property of all stored values. -/
theorem assocInsertPreserves {α : Type} (m : List (String × α)) (k : String) (v : α)
    (P : α → Prop) (hm : ∀ p ∈ m, P p.2) (hv : P v) :
    ∀ p ∈ assocInsert m k v, P p.2 := by
  induction m with
  | nil =>
    intro p hp
    simp only [assocInsert, List.mem_singleton] at hp
    subst hp
    exact hv
  | cons q rest ih =>
    intro p hp
    unfold assocInsert at hp
    by_cases hk : q.1 = k
    · rw [if_pos hk] at hp
      rcases List.mem_cons.mp hp with h | h
      · subst h; exact hv
      · exact hm _ (List.mem_cons_of_mem _ h)
    · rw [if_neg hk] at hp
      rcases List.mem_cons.mp hp with h | h
      · subst h
        exact hm _ (List.mem_cons_self _ _)
      · exact ih (fun r hr => hm _ (List.mem_cons_of_mem _ hr)) _ h

/-- Looking up the inserted key returns the inserted value. -/
theorem assocFindInsert {α : Type} (m : List (String × α)) (k : String) (v : α) :
    assocFind (assocInsert m k v) k = some v := by
  induction m with
  | nil => simp [assocInsert, assocFind]
  | cons q rest ih =>
    unfold assocInsert
    by_cases hk : q.1 = k
    · rw [if_pos hk]
      simp [assocFind, hk]
    · rw [if_neg hk]
      simp [assocFind, hk, ih]

/-- C7: the conversation-to-tenant map never holds an empty tenant value:
the only write in the pipeline is guarded by the truthiness of both the
thread id and the tenant id, so processing any sequence of conversation
records preserves the invariant; and a record with a non-empty thread id and
tenant overwrites whatever was there before (last-write-wins), the new value
being the non-empty tenant. -/
theorem c7_tenant_map_invariant :
    (∀ (tm : List (String × String)) (recs : List ConvRec),
      (∀ p ∈ tm, p.2 ≠ "") → ∀ p ∈ processConversations tm recs, p.2 ≠ "")
    ∧ (∀ (tm : List (String × String)) (rec : ConvRec) (tv : PyDict) (t : String),
      rec.threadVal = some tv → rec.tenantId = some t → t ≠ "" →
      safeStringExtract (assocFind tv "id") ≠ "" →
      assocFind (processConversationRecord tm rec)
        (safeStringExtract (assocFind tv "id")) = some t) := by
  constructor
  · intro tm recs
    induction recs generalizing tm with
    | nil => exact fun h => h
    | cons rec rest ih =>
      intro h
      simp only [processConversations, List.foldl_cons]
      apply ih
      unfold processConversationRecord
      cases hv : rec.threadVal with
      | none => exact h
      | some tv =>
        cases ht : rec.tenantId with
        | none => exact h
        | some t =>
          dsimp only
          split
          next hcond =>
            have hcond2 : safeStringExtract (assocFind tv "id") ≠ "" ∧ t ≠ "" := by
              simpa using hcond
            exact assocInsertPreserves tm _ t (fun v => v ≠ "") h hcond2.2
          next => exact h
  · intro tm rec tv t hv ht ht0 hid
    simp only [processConversationRecord, hv, ht]
    rw [if_pos (by simp [hid, ht0])]
    exact assocFindInsert tm _ t

/-- C7 witness: with the map holding tenant `t1` for conversation `c1`, a
conversation record carrying tenant `t2` for the same thread id keeps the
no-empty-value invariant and overwrites the entry to `t2`. -/
theorem c7_tenant_map_invariant_witness :
    (∀ p ∈ processConversations [("c1", "t1")]
        [{ tenantId := some "t2", threadVal := some [("id", .jstr "c1")] }], p.2 ≠ "")
    ∧ assocFind (processConversationRecord [("c1", "t1")]
        { tenantId := some "t2", threadVal := some [("id", .jstr "c1")] }) "c1"
        = some "t2" := by
  constructor
  · exact c7_tenant_map_invariant.1 [("c1", "t1")] _ (by decide)
  · have h := c7_tenant_map_invariant.2 [("c1", "t1")]
      { tenantId := some "t2", threadVal := some [("id", .jstr "c1")] }
      [("id", .jstr "c1")] "t2" rfl rfl (by decide) (by decide)
    have e : safeStringExtract (assocFind [("id", JVal.jstr "c1")] "id") = "c1" := by decide
    rw [e] at h
    exact h

/-- C8: a document whose load or parse fails is skipped whole: it
contributes zero emissions, leaves the pipeline state unchanged, surfaces
exactly one error message for itself, and the documents after it are
processed exactly as they would have been without it — the failure is not
fatal to the run. -/
theorem c8_unreadable_document_skipped (st : PipeState) (pre post : List PipelineDoc)
    (name e : String) :
    runPipelineDocs st (pre ++ { basename := name, content := .error e } :: post)
      = ((runPipelineDocs (runPipelineDocs st pre).1 post).1,
         (runPipelineDocs st pre).2.1 ++ (runPipelineDocs (runPipelineDocs st pre).1 post).2.1,
         (runPipelineDocs st pre).2.2
           ++ parseErrMsg name e :: (runPipelineDocs (runPipelineDocs st pre).1 post).2.2) := by
  induction pre generalizing st with
  | nil => simp [runPipelineDocs, parseJsonDoc]
  | cons d ds ih =>
    simp [runPipelineDocs, ih, List.append_assoc]

/-- Every group built by the mention-grouping loop from blank-named
fragments has only blank parts. -/
theorem mentionGroupsBlank (frags : List MentionFrag) (gs : List MentionGroup)
    (hg : ∀ g ∈ gs, ∀ p ∈ g.parts, pyStrip p = "")
    (hf : ∀ fr ∈ frags, pyStrip fr.displayName = "") :
    ∀ g ∈ frags.foldl addMentionFrag gs, ∀ p ∈ g.parts, pyStrip p = "" := by
  induction frags generalizing gs with
  | nil => exact hg
  | cons fr rest ih =>
    apply ih
    · intro g hgm p hp
      unfold addMentionFrag at hgm
      by_cases h0 : fr.mri = ""
      · rw [if_pos h0] at hgm
        exact hg g hgm p hp
      · rw [if_neg h0] at hgm
        by_cases hex : gs.any (fun g => g.mri = fr.mri)
        · rw [if_pos hex] at hgm
          rcases List.mem_map.mp hgm with ⟨g0, hg0, hup⟩
          by_cases hsame : g0.mri = fr.mri
          · rw [if_pos (by simp [hsame])] at hup
            subst hup
            simp only [List.mem_append, List.mem_singleton] at hp
            rcases hp with h | h
            · exact hg g0 hg0 p h
            · subst h; exact hf fr (by simp)
          · rw [if_neg (by simp [hsame])] at hup
            subst hup
            exact hg g0 hg0 p hp
        · rw [if_neg hex] at hgm
          rcases List.mem_append.mp hgm with h | h
          · exact hg g h p hp
          · simp only [List.mem_singleton] at h
            subst h
            simp only [List.mem_singleton] at hp
            subst hp
            exact hf fr (by simp)
    · intro x hx
      exact hf x (by simp [hx])

/-- A group with only blank parts emits no merged mention. -/
theorem mentionOfGroupBlank (g : MentionGroup) (h : ∀ p ∈ g.parts, pyStrip p = "") :
    mentionOfGroup g = [] := by
  unfold mentionOfGroup
  have he : (g.parts.map pyStrip).filter (fun p => p ≠ "") = [] := by
    rw [List.filter_eq_nil_iff]
    intro a ha
    rcases List.mem_map.mp ha with ⟨p, hp, rfl⟩
    simp [h p hp]
  simp [he]
  exact h

/-- C10: the mention extraction silently drops fragments: a fragment whose
participant identifier is empty joins no group and is discarded, and a set
of fragments all of whose display-name parts are blank after stripping
yields no merged mention at all — so the extractor can emit zero mention
records even when raw mention elements are present. -/
theorem c10_mention_extraction_drops :
    (∀ (fr : MentionFrag) (frags : List MentionFrag), fr.mri = "" →
      extractPropsMentions (fr :: frags) = extractPropsMentions frags)
    ∧ (∀ frags : List MentionFrag, (∀ fr ∈ frags, pyStrip fr.displayName = "") →
      extractPropsMentions frags = []) := by
  constructor
  · intro fr frags h
    unfold extractPropsMentions
    rw [List.foldl_cons]
    unfold addMentionFrag
    rw [if_pos h]
  · intro frags hf
    unfold extractPropsMentions
    have hb := mentionGroupsBlank frags [] (by simp) hf
    generalize frags.foldl addMentionFrag [] = gs at hb
    induction gs with
    | nil => rfl
    | cons g t ih =>
      rw [List.flatMap_cons, mentionOfGroupBlank g (hb g (by simp)),
        List.nil_append]
      exact ih (fun g2 hg2 p hp => hb g2 (by simp [hg2]) p hp)

/-- C10 witness: a fragment with an empty identifier yields nothing, and a
fragment whose display name is blank after stripping yields nothing, even
though raw mention elements are present in both cases. -/
theorem c10_mention_extraction_drops_witness :
    extractPropsMentions [{ mri := "", mentionType := "user", displayName := "Bob" }] = []
    ∧ extractPropsMentions [{ mri := "8:bob", mentionType := "user", displayName := "  " }] = [] := by
  constructor
  · have h := c10_mention_extraction_drops.1
      { mri := "", mentionType := "user", displayName := "Bob" } [] rfl
    rw [h]
    rfl
  · exact c10_mention_extraction_drops.2
      [{ mri := "8:bob", mentionType := "user", displayName := "  " }] (by decide)

/-- C4: for a markup value containing a Reply blockquote whose first bold
run strips to the sender `Alice`, whose quoted body (bold runs removed)
renders to `hi`, whose trailing content renders to `ok`, with nothing before
the quote and no resolvable sender identifier, the renderer returns the
bold-transformed label `In reply to Alice:`, a space, `hi`, a blank line and
`ok`; and the bold transform maps capitals to the U+1D400 block, small
letters to U+1D41A, digits to U+1D7CE, leaves every other character
unchanged, and is applied character-wise (so only the label is
transformed). -/
theorem c4_reply_reconstruction (cm : ContactsMap) (f : Nat) (props : Option JVal)
    (html pre inner after raw : String)
    (hne : html ≠ "")
    (hlink : searchLinkOnly html = none)
    (hreply : searchBq replyItemLit html = some (pre, inner, after))
    (hbefore : pyStrip pre = "")
    (hsender : strongFirst inner = some raw)
    (hsname : pyStrip raw = "Alice")
    (hspan : spanItemid inner = none)
    (hq : cleanHtmlF cm f none (removeStrongs inner) = "hi")
    (hr : cleanHtmlF cm f none after = "ok") :
    cleanHtmlF cm (f + 1) props html
      = boldUnicode "In reply to Alice:" ++ " " ++ "hi" ++ "\n\n" ++ "ok"
    ∧ (∀ c : Char, 65 ≤ c.toNat → c.toNat ≤ 90 →
        boldChar c = Char.ofNat (0x1D400 + (c.toNat - 65)))
    ∧ (∀ c : Char, 97 ≤ c.toNat → c.toNat ≤ 122 →
        boldChar c = Char.ofNat (0x1D41A + (c.toNat - 97)))
    ∧ (∀ c : Char, 48 ≤ c.toNat → c.toNat ≤ 57 →
        boldChar c = Char.ofNat (0x1D7CE + (c.toNat - 48)))
    ∧ (∀ c : Char, ¬(65 ≤ c.toNat ∧ c.toNat ≤ 90) → ¬(97 ≤ c.toNat ∧ c.toNat ≤ 122) →
        ¬(48 ≤ c.toNat ∧ c.toNat ≤ 57) → boldChar c = c)
    ∧ (∀ s : String, boldUnicode s = String.mk (s.data.map boldChar)) := by
  refine ⟨?_, ?_, ?_, ?_, ?_, ?_⟩
  · simp only [cleanHtmlF, if_neg hne, hlink, hreply, hbefore, hq, hr]
    simp only [composeReply, hsender, hspan, hsname]
    rw [if_neg (by simp), if_pos (by simp)]
    decide
  · intro c h1 h2
    simp [boldChar, h1, h2]
  · intro c h1 h2
    have hno : ¬(65 ≤ c.toNat ∧ c.toNat ≤ 90) := by omega
    simp only [boldChar]
    rw [if_neg (by simpa using hno), if_pos (by simp [h1, h2])]
  · intro c h1 h2
    have hno1 : ¬(65 ≤ c.toNat ∧ c.toNat ≤ 90) := by omega
    have hno2 : ¬(97 ≤ c.toNat ∧ c.toNat ≤ 122) := by omega
    simp only [boldChar]
    rw [if_neg (by simpa using hno1), if_neg (by simpa using hno2),
      if_pos (by simp [h1, h2])]
  · intro c h1 h2 h3
    simp only [boldChar]
    rw [if_neg (by simpa using h1), if_neg (by simpa using h2), if_neg (by simpa using h3)]
  · intro s
    rfl

/-- C4 witness: a concrete Reply blockquote quoting sender `Alice` with body
`hi` and trailing text `ok` renders to the bold label followed by the quoted
and trailing text. -/
theorem c4_reply_reconstruction_witness :
    cleanHtmlF [] 2 none
      "<blockquote itemtype=\"http://schema.skype.com/Reply\"><strong>Alice</strong>hi</blockquote>ok"
      = boldUnicode "In reply to Alice:" ++ " " ++ "hi" ++ "\n\n" ++ "ok" :=
  (c4_reply_reconstruction [] 1 none
    "<blockquote itemtype=\"http://schema.skype.com/Reply\"><strong>Alice</strong>hi</blockquote>ok"
    "" "<strong>Alice</strong>hi" "ok" "Alice"
    (by decide) (by decide) (by decide) (by decide) (by decide) (by decide) (by decide)
    (by decide) (by decide)).1

end TeamsArtifacts
